import Mathlib

/-!
Verification development for the running-loop route generator
(source: src/Myloop.py).

The embedded functions are `calculate_loop_smoothness`, `generate_smart_loops`
and `export_gpx`.  Graph data (node coordinates, edge lengths) is supplied by
an external road-network library and is modelled as a record of functions;
edge lookup is partial (`Option`), matching the `KeyError` a missing edge
raises in the source.  The list of simple cycles is produced by the external
`networkx` library, so it enters the model as an input list.
-/

namespace RunningLoop

open Real

/-- Road graph as the source consumes it: `G.nodes[n]['x']`, `G.nodes[n]['y']`
give node coordinates, and `G.edges[u, v, 0]['length']` gives the length of an
edge, raising (modelled as `none`) when the edge or attribute is missing.
Lengths are rationals (exact arithmetic for the metric part of the model). -/
structure Graph where
  x : Nat → ℝ
  y : Nat → ℝ
  length : Nat → Nat → Option ℚ

/-- Shallow embedding of `np.clip(v, lo, hi)`. -/
noncomputable def npClip (v lo hi : ℝ) : ℝ := min hi (max lo v)

/-- Per-interior-node angle of `calculate_loop_smoothness`: with
`a = coords[i-1]`, `b = coords[i]`, `c = coords[i+1]`, the source computes
`ba = a - b`, `bc = c - b`, the cosine as their dot product over the product
of their Euclidean norms, clips it to `[-1, 1]`, takes `arccos` and converts
to degrees. -/
noncomputable def angleAt (G : Graph) (a b c : Nat) : ℝ :=
  Real.arccos (npClip
    (((G.x a - G.x b) * (G.x c - G.x b) + (G.y a - G.y b) * (G.y c - G.y b)) /
      (Real.sqrt ((G.x a - G.x b) ^ 2 + (G.y a - G.y b) ^ 2) *
        Real.sqrt ((G.x c - G.x b) ^ 2 + (G.y c - G.y b) ^ 2)))
    (-1) 1) * (180 / Real.pi)

/-- The `angles` list accumulated by the loop
`for i in range(1, len(coords) - 1)` of `calculate_loop_smoothness`:
one angle per window of three consecutive nodes. -/
noncomputable def anglesList (G : Graph) : List Nat → List ℝ
  | a :: b :: c :: rest => angleAt G a b c :: anglesList G (b :: c :: rest)
  | _ => []

/-- Shallow embedding of `calculate_loop_smoothness`:
`np.sum(np.abs(angles))` over the accumulated angles. -/
noncomputable def calculate_loop_smoothness (G : Graph) (loop : List Nat) : ℝ :=
  (anglesList G loop).foldr (fun a acc => |a| + acc) 0

/-- Modelled from the spec: the turn angle at an interior node between the
incoming and outgoing direction (edge) vectors, i.e. between `b - a` and
`c - b`, with the same clip/arccos/degrees pipeline.  This definition follows
the spec wording; the source instead uses `a - b` and `c - b` (see
`angleAt`), which flips the angle to its supplement. -/
noncomputable def specTurnAngle (G : Graph) (a b c : Nat) : ℝ :=
  Real.arccos (npClip
    (((G.x b - G.x a) * (G.x c - G.x b) + (G.y b - G.y a) * (G.y c - G.y b)) /
      (Real.sqrt ((G.x b - G.x a) ^ 2 + (G.y b - G.y a) ^ 2) *
        Real.sqrt ((G.x c - G.x b) ^ 2 + (G.y c - G.y b) ^ 2)))
    (-1) 1) * (180 / Real.pi)

/-- Two-node graph on a horizontal segment: node 0 at (0,0), node 1 at (1,0),
one undirected edge of length 2500 m in each direction. -/
noncomputable def segGraph : Graph where
  x := fun n => if n = 0 then 0 else 1
  y := fun _ => 0
  length := fun u v =>
    if (u = 0 ∧ v = 1) ∨ (u = 1 ∧ v = 0) then some 2500 else none

/-- Closing of an enumerated cycle, `cycle.append(cycle[0])` in the source. -/
def closeCycle : List Nat → List Nat
  | [] => []
  | h :: t => h :: (t ++ [h])

/-- The `sum(G.edges[cycle[i], cycle[i+1], 0]['length'] for i in ...)` inside
the `try` block: total length over consecutive pairs, `none` as soon as one
edge lookup raises. -/
def cycleLength (G : Graph) : List Nat → Option ℚ
  | a :: b :: rest => do
      let l ← G.length a b
      let s ← cycleLength G (b :: rest)
      pure (l + s)
  | _ => some 0

/-- The `loops` list built by the `for cycle in cycles[:max_cycles]` loop of
`generate_smart_loops`: close each cycle, compute its length (skipping the
cycle if an edge lookup raises), keep it when the length lies in the
tolerance window, and record `(closed cycle, length, smoothness)`. -/
noncomputable def candidate_loops (G : Graph) (cycles : List (List Nat))
    (desired_distance_km tolerance : ℚ) (max_cycles : Nat) :
    List (List Nat × ℚ × ℝ) :=
  (cycles.take max_cycles).filterMap fun cycle =>
    match cycleLength G (closeCycle cycle) with
    | none => none
    | some length =>
      if desired_distance_km * 1000 * (1 - tolerance) ≤ length ∧
          length ≤ desired_distance_km * 1000 * (1 + tolerance) then
        some (closeCycle cycle, length, calculate_loop_smoothness G (closeCycle cycle))
      else none

/-- Shallow embedding of `generate_smart_loops`.  The enumerated simple
cycles (`nx.simple_cycles(G.to_directed())` in the source, an external
library call) enter as the input list `cycles`.  The final
`loops.sort(key=lambda x: x[2])` is a stable ascending sort by the smoothness
component, modelled by insertion sort (extensionally equal to any stable
ascending sort).  The `start_node` argument is accepted but, as in the
source, never used. -/
noncomputable def generate_smart_loops (G : Graph) (cycles : List (List Nat))
    (start_node : Nat) (desired_distance_km : ℚ) (tolerance : ℚ := 1/10)
    (max_cycles : Nat := 500) : List (List Nat × ℚ × ℝ) :=
  List.insertionSort (fun a b => a.2.2 ≤ b.2.2)
    (candidate_loops G cycles desired_distance_km tolerance max_cycles)

instance : IsTotal (List Nat × ℚ × ℝ) (fun a b => a.2.2 ≤ b.2.2) :=
  ⟨fun a b => le_total a.2.2 b.2.2⟩

instance : IsTrans (List Nat × ℚ × ℝ) (fun a b => a.2.2 ≤ b.2.2) :=
  ⟨fun _ _ _ h h2 => le_trans h h2⟩

/-- Graph with no edge data at all: every edge lookup raises. -/
noncomputable def noEdgeGraph : Graph where
  x := fun _ => 0
  y := fun _ => 0
  length := fun _ _ => none

/-- Graph with 501 undirected edges: the edge `{2, 3}` has length 2500 m,
and for every `i < 500` the edge `{4 + 2i, 5 + 2i}` has length 1 m.
All nodes sit at the origin (coordinates are irrelevant here). -/
noncomputable def bigGraph : Graph where
  x := fun _ => 0
  y := fun _ => 0
  length := fun u v =>
    if (u = 2 ∧ v = 3) ∨ (u = 3 ∧ v = 2) then some 2500
    else if 4 ≤ u ∧ v = u + 1 then some 1
    else if 4 ≤ v ∧ u = v + 1 then some 1
    else none

/-- A possible `simple_cycles` enumeration of `bigGraph`: the 500 short
two-node cycles first, the qualifying cycle `[2, 3]` last. -/
def bigCycles : List (List Nat) :=
  (List.range 500).map (fun i => [4 + 2 * i, 5 + 2 * i]) ++ [[2, 3]]

/-- Six-node fixture with two disjoint triangles.  Nodes 0,1,2 form an
equilateral triangle (apex angle construction with `t = π/3`, interior base
angles 60° each, smoothness 120°) with perimeter 4900 m; nodes 3,4,5 form an
isoceles triangle with base angles 47.5° each (`t = 19π/72`, smoothness 95°)
and perimeter 5100 m. -/
noncomputable def scenarioGraph : Graph where
  x := fun n =>
    if n = 0 then 1/2 else if n = 1 then 0 else if n = 2 then 1
    else if n = 3 then 1/2 else if n = 4 then 0 else if n = 5 then 1 else 0
  y := fun n =>
    if n = 0 then Real.tan (Real.pi / 3) / 2
    else if n = 3 then Real.tan (19 * Real.pi / 72) / 2 else 0
  length := fun u v =>
    if (u = 0 ∧ v = 1) ∨ (u = 1 ∧ v = 0) then some 1000
    else if (u = 1 ∧ v = 2) ∨ (u = 2 ∧ v = 1) then some 1000
    else if (u = 2 ∧ v = 0) ∨ (u = 0 ∧ v = 2) then some 2900
    else if (u = 3 ∧ v = 4) ∨ (u = 4 ∧ v = 3) then some 1700
    else if (u = 4 ∧ v = 5) ∨ (u = 5 ∧ v = 4) then some 1700
    else if (u = 5 ∧ v = 3) ∨ (u = 3 ∧ v = 5) then some 1700
    else none

/-- A possible `simple_cycles` enumeration for the scenario fixture. -/
def scenarioCycles : List (List Nat) := [[0, 1, 2], [3, 4, 5]]

/-- Unordered consecutive node pairs of a node sequence: the undirected road
edges a walk traverses, in order. -/
def undirectedEdges : List Nat → List (Nat × Nat)
  | a :: b :: rest => (min a b, max a b) :: undirectedEdges (b :: rest)
  | _ => []

/-- Element tree in the style of `xml.etree.ElementTree`: a tag, a list of
attributes, optional text content and a list of child elements. -/
inductive Xml where
  | elem (tag : String) (attrs : List (String × String)) (text : Option String)
      (children : List Xml)

def Xml.tag : Xml → String
  | .elem t _ _ _ => t

def Xml.attrs : Xml → List (String × String)
  | .elem _ a _ _ => a

def Xml.children : Xml → List Xml
  | .elem _ _ _ c => c

/-- Output of `tree.write(gpx_bytes, encoding="utf-8", xml_declaration=True)`:
the serialized tree together with the write options used. -/
structure GpxDocument where
  encoding : String
  xml_declaration : Bool
  root : Xml

/-- The `trkpt` element built per dataframe row:
`SubElement(trkseg, "trkpt", lat=str(row["lat"]), lon=str(row["lon"]))` with
an `ele` child whose text is `"0"`. -/
def trkptOf (row : ℚ × ℚ) : Xml :=
  .elem "trkpt" [("lat", toString row.1), ("lon", toString row.2)] none
    [.elem "ele" [] (some "0") []]

/-- Shallow embedding of `export_gpx`: builds the `gpx`/`trk`/`trkseg` spine,
appends one `trkpt` per row of the route dataframe (modelled as a list of
`(lat, lon)` pairs, in row order), and writes the tree UTF-8 encoded with an
XML declaration. -/
def export_gpx (route_df : List (ℚ × ℚ)) : GpxDocument :=
  { encoding := "utf-8"
    xml_declaration := true
    root := .elem "gpx" [("version", "1.1"), ("creator", "RunningLoopApp")] none
      [.elem "trk" [] none
        [.elem "trkseg" [] none
          (route_df.foldl (fun acc row => acc ++ [trkptOf row]) [])]] }

/-- Track points of the single track segment of the single track of a GPX
document, when the document has that shape. -/
def trksegPoints (g : GpxDocument) : List Xml :=
  match g.root with
  | .elem _ _ _ [Xml.elem _ _ _ [Xml.elem _ _ _ pts]] => pts
  | _ => []

lemma angleAt_nonneg (G : Graph) (a b c : Nat) : 0 ≤ angleAt G a b c := by
  have h2 : (0 : ℝ) ≤ 180 / Real.pi :=
    div_nonneg (by norm_num) (le_of_lt Real.pi_pos)
  exact mul_nonneg (Real.arccos_nonneg _) h2

lemma smoothness_foldr_nonneg (l : List ℝ) :
    0 ≤ l.foldr (fun a acc => |a| + acc) 0 := by
  induction l with
  | nil => simp
  | cons a l ih =>
    simp only [List.foldr_cons]
    have := abs_nonneg a
    linarith

lemma smoothness_foldr_eq_zero_iff (l : List ℝ) :
    l.foldr (fun a acc => |a| + acc) 0 = 0 ↔ ∀ a ∈ l, a = 0 := by
  induction l with
  | nil => simp
  | cons a l ih =>
    simp only [List.foldr_cons, List.mem_cons]
    constructor
    · intro h
      have ha := abs_nonneg a
      have hl := smoothness_foldr_nonneg l
      have h1 : |a| = 0 := by linarith
      have h2 : l.foldr (fun a acc => |a| + acc) 0 = 0 := by linarith
      refine fun b hb => ?_
      rcases hb with rfl | hb
      · exact abs_eq_zero.mp h1
      · exact ih.mp h2 b hb
    · intro h
      have h1 : a = 0 := h a (Or.inl rfl)
      have h2 : l.foldr (fun a acc => |a| + acc) 0 = 0 :=
        ih.mpr fun b hb => h b (Or.inr hb)
      simp [h1, h2]

/-- C1 (counterexample): the closed node sequence `[0, 1, 0]` on `segGraph`
reverses direction at its single interior node — the turn angle between the
incoming and outgoing direction vectors is 180 degrees, not 0, so the
traversal is not straight there — yet `calculate_loop_smoothness` scores
it exactly 0, because the source measures the angle between `a - b` and
`c - b` rather than between `b - a` and `c - b`. -/
lemma seg_smoothness : calculate_loop_smoothness segGraph [0, 1, 0] = 0 := by
  simp only [calculate_loop_smoothness, anglesList, angleAt, segGraph, npClip]
  norm_num [Real.sqrt_one, max_def, min_def, Real.arccos_one]

theorem smoothness_zero_on_reversal_counterexample :
    calculate_loop_smoothness segGraph [0, 1, 0] = 0 ∧
      specTurnAngle segGraph 0 1 0 = 180 := by
  constructor
  · exact seg_smoothness
  · simp only [specTurnAngle, segGraph, npClip]
    norm_num [Real.sqrt_one, max_def, min_def, Real.arccos_neg_one]
    field_simp

/-- C1 (amended): for every graph and every node sequence, the smoothness
score is non-negative, and it equals `0` exactly when every per-interior-node
angle computed by the code (the angle between the vectors from the node to
its predecessor and from the node to its successor) is `0` degrees. -/
theorem calculate_loop_smoothness_nonneg_zero_iff (G : Graph) (loop : List Nat) :
    0 ≤ calculate_loop_smoothness G loop ∧
      (calculate_loop_smoothness G loop = 0 ↔
        ∀ a ∈ anglesList G loop, a = 0) := by
  refine ⟨smoothness_foldr_nonneg _, smoothness_foldr_eq_zero_iff _⟩

lemma mem_generate_iff {G : Graph} {cycles : List (List Nat)} {sn : Nat}
    {d t : ℚ} {m : Nat} {x : List Nat × ℚ × ℝ} :
    x ∈ generate_smart_loops G cycles sn d t m ↔
      x ∈ candidate_loops G cycles d t m := by
  unfold generate_smart_loops
  exact List.mem_insertionSort _

lemma mem_candidate_loops_iff {G : Graph} {cycles : List (List Nat)}
    {d t : ℚ} {m : Nat} {x : List Nat × ℚ × ℝ} :
    x ∈ candidate_loops G cycles d t m ↔
      ∃ c ∈ cycles.take m, ∃ L : ℚ,
        cycleLength G (closeCycle c) = some L ∧
        (d * 1000 * (1 - t) ≤ L ∧ L ≤ d * 1000 * (1 + t)) ∧
        x = (closeCycle c, L, calculate_loop_smoothness G (closeCycle c)) := by
  unfold candidate_loops
  rw [List.mem_filterMap]
  constructor
  · rintro ⟨c, hc, heq⟩
    cases h : cycleLength G (closeCycle c) with
    | none => rw [h] at heq; exact absurd heq (by simp)
    | some L =>
      rw [h] at heq
      simp only [] at heq
      by_cases hwin : d * 1000 * (1 - t) ≤ L ∧ L ≤ d * 1000 * (1 + t)
      · rw [if_pos hwin] at heq
        exact ⟨c, hc, L, h, hwin, (Option.some_inj.mp heq).symm⟩
      · rw [if_neg hwin] at heq
        exact absurd heq (by simp)
  · rintro ⟨c, hc, L, hL, hwin, rfl⟩
    refine ⟨c, hc, ?_⟩
    rw [hL]
    simp only []
    rw [if_pos hwin]

/-- C4: every candidate returned by `generate_smart_loops` is a closed node
sequence (its first and last node identifiers agree) and its reported length
is the sum of the edge lengths over the consecutive pairs of that closed
sequence. -/
theorem generate_smart_loops_closed_length (G : Graph) (cycles : List (List Nat))
    (sn : Nat) (d t : ℚ) (m : Nat) :
    ∀ x ∈ generate_smart_loops G cycles sn d t m,
      x.1.head? = x.1.getLast? ∧ cycleLength G x.1 = some x.2.1 := by
  intro x hx
  obtain ⟨c, _, L, hL, _, rfl⟩ := mem_candidate_loops_iff.mp (mem_generate_iff.mp hx)
  refine ⟨?_, hL⟩
  cases c with
  | nil => simp [closeCycle]
  | cons h t =>
    show (h :: (t ++ [h])).head? = (h :: (t ++ [h])).getLast?
    rw [show h :: (t ++ [h]) = (h :: t) ++ [h] by simp]
    rw [List.getLast?_concat]
    simp

/-- C3 (amended): every candidate returned by `generate_smart_loops` has
length inside the inclusive tolerance window, and conversely every cycle
among the first `max_cycles` enumerated ones whose closed length computes
and lies in the window is returned (cycles past the `max_cycles` cap are
not examined; see the counterexample). -/
theorem generate_smart_loops_window_capped (G : Graph) (cycles : List (List Nat))
    (sn : Nat) (d t : ℚ) (m : Nat) :
    (∀ x ∈ generate_smart_loops G cycles sn d t m,
        d * 1000 * (1 - t) ≤ x.2.1 ∧ x.2.1 ≤ d * 1000 * (1 + t)) ∧
    (∀ c ∈ cycles.take m, ∀ L : ℚ,
        cycleLength G (closeCycle c) = some L →
        d * 1000 * (1 - t) ≤ L → L ≤ d * 1000 * (1 + t) →
        (closeCycle c, L, calculate_loop_smoothness G (closeCycle c)) ∈
          generate_smart_loops G cycles sn d t m) := by
  constructor
  · intro x hx
    obtain ⟨c, _, L, _, hwin, rfl⟩ :=
      mem_candidate_loops_iff.mp (mem_generate_iff.mp hx)
    exact hwin
  · intro c hc L hL h1 h2
    exact mem_generate_iff.mpr
      (mem_candidate_loops_iff.mpr ⟨c, hc, L, hL, ⟨h1, h2⟩, rfl⟩)

/-- C8: a per-cycle length-computation failure (a missing edge lookup) makes
`generate_smart_loops` skip that cycle and continue, never failing the whole
call, and when no examined cycle qualifies the function returns the empty
list. -/
theorem generate_smart_loops_skip_and_empty :
    (∀ (G : Graph) (c : List Nat) (cycles : List (List Nat)) (sn : Nat)
        (d t : ℚ) (m : Nat),
        cycleLength G (closeCycle c) = none →
        generate_smart_loops G (c :: cycles) sn d t (m + 1) =
          generate_smart_loops G cycles sn d t m) ∧
    (∀ (G : Graph) (cycles : List (List Nat)) (sn : Nat) (d t : ℚ) (m : Nat),
        (∀ c ∈ cycles.take m, c ≠ [] ∧
          ∀ L : ℚ, cycleLength G (closeCycle c) = some L →
            ¬(d * 1000 * (1 - t) ≤ L ∧ L ≤ d * 1000 * (1 + t))) →
        generate_smart_loops G cycles sn d t m = []) := by
  constructor
  · intro G c cycles sn d t m hfail
    unfold generate_smart_loops candidate_loops
    rw [List.take_succ_cons, List.filterMap_cons]
    rw [hfail]
  · intro G cycles sn d t m hnone
    unfold generate_smart_loops candidate_loops
    rw [List.filterMap_eq_nil_iff.mpr ?_]
    · rfl
    · intro c hc
      cases h : cycleLength G (closeCycle c) with
      | none => rfl
      | some L =>
        simp only []
        exact if_neg ((hnone c hc).2 L h)

/-- C7 (amended): `generate_smart_loops` examines at most `max_cycles`
enumerated cycles — its result only depends on the first `max_cycles`
entries of the cycle list — and its default parameter values are
`tolerance = 1/10` and `max_cycles = 500` (the Streamlit caller passes
`max_cycles = 800` explicitly; 800 is not the default). -/
theorem generate_smart_loops_cap_and_defaults :
    (∀ (G : Graph) (cycles : List (List Nat)) (sn : Nat) (d t : ℚ) (m : Nat),
        generate_smart_loops G cycles sn d t m =
          generate_smart_loops G (cycles.take m) sn d t m) ∧
    (∀ (G : Graph) (cycles : List (List Nat)) (sn : Nat) (d : ℚ),
        generate_smart_loops G cycles sn d =
          generate_smart_loops G cycles sn d (1/10) 500) := by
  constructor
  · intro G cycles sn d t m
    unfold generate_smart_loops candidate_loops
    rw [List.take_take, Nat.min_self]
  · intro G cycles sn d
    rfl

/-- C8 (witness): on a graph where every edge lookup fails, the call still
returns normally (the empty list) instead of failing. -/
theorem generate_smart_loops_skip_and_empty_witness :
    generate_smart_loops noEdgeGraph [[0, 1]] 0 5 (1/10) 1 = [] := by
  refine generate_smart_loops_skip_and_empty.2 noEdgeGraph [[0, 1]] 0 5 (1/10) 1 ?_
  intro c hc
  simp only [List.take, List.mem_singleton] at hc
  subst hc
  refine ⟨by simp, ?_⟩
  intro L hL
  simp [cycleLength, closeCycle, noEdgeGraph] at hL

lemma bigGraph_length_up (i : Nat) :
    bigGraph.length (4 + 2 * i) (5 + 2 * i) = some 1 := by
  show (if _ then _ else if _ then _ else if _ then _ else _) = _
  rw [if_neg (by omega), if_pos (by omega)]

lemma bigGraph_length_down (i : Nat) :
    bigGraph.length (5 + 2 * i) (4 + 2 * i) = some 1 := by
  show (if _ then _ else if _ then _ else if _ then _ else _) = _
  rw [if_neg (by omega), if_neg (by omega), if_pos (by omega)]

lemma big_filler_rejected (i : Nat) :
    (fun cycle =>
        match cycleLength bigGraph (closeCycle cycle) with
        | none => none
        | some length =>
          if (5 : ℚ) * 1000 * (1 - 1/10) ≤ length ∧
              length ≤ (5 : ℚ) * 1000 * (1 + 1/10) then
            some (closeCycle cycle, length,
              calculate_loop_smoothness bigGraph (closeCycle cycle))
          else none)
      [4 + 2 * i, 5 + 2 * i] = none := by
  have hclose : closeCycle [4 + 2 * i, 5 + 2 * i] =
      [4 + 2 * i, 5 + 2 * i, 4 + 2 * i] := rfl
  have hlen : cycleLength bigGraph [4 + 2 * i, 5 + 2 * i, 4 + 2 * i] =
      some 2 := by
    simp [cycleLength, bigGraph_length_up, bigGraph_length_down]
    norm_num
  simp only [hclose, hlen]
  rw [if_neg (by norm_num)]

lemma big_candidates_default :
    candidate_loops bigGraph bigCycles 5 (1/10) 500 = [] := by
  unfold candidate_loops
  rw [show bigCycles.take 500 =
        (List.range 500).map (fun i => [4 + 2 * i, 5 + 2 * i]) from
      List.take_left' (by simp [bigCycles])]
  rw [List.filterMap_eq_nil_iff]
  intro c hc
  obtain ⟨i, _, rfl⟩ := List.mem_map.mp hc
  exact big_filler_rejected i

lemma big_result_default :
    generate_smart_loops bigGraph bigCycles 0 5 = [] := by
  unfold generate_smart_loops
  rw [big_candidates_default]
  rfl

lemma bigGraph_len_23 : cycleLength bigGraph (closeCycle [2, 3]) = some 5000 := by
  have h1 : bigGraph.length 2 3 = some 2500 := by simp [bigGraph]
  have h2 : bigGraph.length 3 2 = some 2500 := by simp [bigGraph]
  show cycleLength bigGraph [2, 3, 2] = some 5000
  simp [cycleLength, h1, h2]
  norm_num

lemma big_result_800 :
    generate_smart_loops bigGraph bigCycles 0 5 (1/10) 800 =
      [([2, 3, 2], 5000, calculate_loop_smoothness bigGraph [2, 3, 2])] := by
  unfold generate_smart_loops candidate_loops
  rw [List.take_of_length_le (by simp [bigCycles])]
  unfold bigCycles
  rw [List.filterMap_append]
  rw [List.filterMap_eq_nil_iff.mpr ?_]
  · rw [List.nil_append]
    simp only [List.filterMap_cons, List.filterMap_nil,
      show closeCycle [2, 3] = [2, 3, 2] from rfl,
      show cycleLength bigGraph [2, 3, 2] = some 5000 from bigGraph_len_23]
    rw [if_pos (by norm_num)]
    rfl
  · intro c hc
    obtain ⟨i, _, rfl⟩ := List.mem_map.mp hc
    exact big_filler_rejected i

/-- C3 (counterexample): the cycle `[2, 3]` of `bigGraph` is enumerated, its
closed length computes to 5000 m, which lies inside the window
`[4500, 5500]` for a 5 km target at tolerance 0.10, yet its candidate is not
in the result: it sits past the `max_cycles` cap (500 by default), so it is
never examined. -/
theorem window_completeness_counterexample :
    [2, 3] ∈ bigCycles ∧
    cycleLength bigGraph (closeCycle [2, 3]) = some 5000 ∧
    (5 : ℚ) * 1000 * (1 - 1/10) ≤ 5000 ∧
    (5000 : ℚ) ≤ 5 * 1000 * (1 + 1/10) ∧
    (closeCycle [2, 3], (5000 : ℚ),
        calculate_loop_smoothness bigGraph (closeCycle [2, 3])) ∉
      generate_smart_loops bigGraph bigCycles 0 5 := by
  refine ⟨by simp [bigCycles], bigGraph_len_23, by norm_num, by norm_num, ?_⟩
  rw [big_result_default]
  simp

/-- C7 (counterexample): with its default arguments the function examines
only 500 cycles — on a 501-cycle enumeration whose only qualifying cycle
comes last, the defaults give an empty result while an explicit
`max_cycles = 800` returns that cycle.  The default is 500, not 800. -/
theorem default_max_cycles_counterexample :
    bigCycles.length = 501 ∧
    generate_smart_loops bigGraph bigCycles 0 5 = [] ∧
    generate_smart_loops bigGraph bigCycles 0 5 (1/10) 800 ≠ [] := by
  refine ⟨by simp [bigCycles], big_result_default, ?_⟩
  rw [big_result_800]
  simp

lemma cos_pos_of_lt_half_pi {t : ℝ} (h0 : 0 ≤ t) (hlt : t < Real.pi / 2) :
    0 < Real.cos t :=
  Real.cos_pos_of_mem_Ioo ⟨by linarith [Real.pi_pos], hlt⟩

lemma arccos_npClip_cos {t : ℝ} (h0 : 0 ≤ t) (hπ : t ≤ Real.pi) :
    Real.arccos (npClip (Real.cos t) (-1) 1) = t := by
  have h1 : npClip (Real.cos t) (-1) 1 = Real.cos t := by
    unfold npClip
    rw [max_eq_right (Real.neg_one_le_cos t), min_eq_right (Real.cos_le_one t)]
  rw [h1, Real.arccos_cos h0 hπ]

lemma sqrt_quarter_add_tan_sq {t : ℝ} (h0 : 0 ≤ t) (hlt : t < Real.pi / 2) :
    Real.sqrt ((1/2) ^ 2 + (Real.tan t / 2) ^ 2) = 1 / (2 * Real.cos t) := by
  have hc : 0 < Real.cos t := cos_pos_of_lt_half_pi h0 hlt
  have hc' : Real.cos t ≠ 0 := ne_of_gt hc
  have harg : (1/2 : ℝ) ^ 2 + (Real.tan t / 2) ^ 2 = (1 / (2 * Real.cos t)) ^ 2 := by
    rw [Real.tan_eq_sin_div_cos]
    field_simp
    linear_combination (16 * Real.cos t ^ 2) * Real.sin_sq_add_cos_sq t
  rw [harg, Real.sqrt_sq (by positivity)]

/-- Smoothness of the closed triangle `[p, q, r, p]` whose apex `p` sits at
`(1/2, tan t / 2)` above the unit base `q = (0,0)`, `r = (1,0)`: the two
interior angles (at the base vertices `q` and `r`) both equal `t`, so the
score is `2 t` converted to degrees. -/
lemma iso_smoothness (G : Graph) (p q r : Nat) (t : ℝ)
    (h0 : 0 ≤ t) (hlt : t < Real.pi / 2)
    (hpx : G.x p = 1/2) (hpy : G.y p = Real.tan t / 2)
    (hqx : G.x q = 0) (hqy : G.y q = 0)
    (hrx : G.x r = 1) (hry : G.y r = 0) :
    calculate_loop_smoothness G [p, q, r, p] = 2 * t * (180 / Real.pi) := by
  have hπ : t ≤ Real.pi := by linarith [Real.pi_pos]
  have e1 : angleAt G p q r = t * (180 / Real.pi) := by
    unfold angleAt
    rw [hpx, hpy, hqx, hqy, hrx, hry]
    have h1 : ((1/2 : ℝ) - 0) * (1 - 0) + (Real.tan t / 2 - 0) * (0 - 0) = 1/2 := by
      ring
    have h2 : ((1/2 : ℝ) - 0) ^ 2 + (Real.tan t / 2 - 0) ^ 2 =
        (1/2) ^ 2 + (Real.tan t / 2) ^ 2 := by ring
    have h3 : ((1 : ℝ) - 0) ^ 2 + ((0 : ℝ) - 0) ^ 2 = 1 := by ring
    rw [h1, h2, h3, Real.sqrt_one, mul_one, sqrt_quarter_add_tan_sq h0 hlt,
      div_div_eq_mul_div, div_one]
    rw [show (1/2 : ℝ) * (2 * Real.cos t) = Real.cos t from by ring]
    rw [arccos_npClip_cos h0 hπ]
  have e2 : angleAt G q r p = t * (180 / Real.pi) := by
    unfold angleAt
    rw [hpx, hpy, hqx, hqy, hrx, hry]
    have h1 : ((0 : ℝ) - 1) * (1/2 - 1) + ((0 : ℝ) - 0) * (Real.tan t / 2 - 0) =
        1/2 := by ring
    have h2 : ((0 : ℝ) - 1) ^ 2 + ((0 : ℝ) - 0) ^ 2 = 1 := by ring
    have h3 : ((1/2 : ℝ) - 1) ^ 2 + (Real.tan t / 2 - 0) ^ 2 =
        (1/2) ^ 2 + (Real.tan t / 2) ^ 2 := by ring
    rw [h1, h2, h3, Real.sqrt_one, one_mul, sqrt_quarter_add_tan_sq h0 hlt,
      div_div_eq_mul_div, div_one]
    rw [show (1/2 : ℝ) * (2 * Real.cos t) = Real.cos t from by ring]
    rw [arccos_npClip_cos h0 hπ]
  unfold calculate_loop_smoothness
  rw [show anglesList G [p, q, r, p] = [angleAt G p q r, angleAt G q r p] from
    rfl]
  rw [List.foldr_cons, List.foldr_cons, List.foldr_nil, e1, e2]
  have habs : |t * (180 / Real.pi)| = t * (180 / Real.pi) :=
    abs_of_nonneg (mul_nonneg h0 (by positivity))
  rw [habs]
  ring

lemma scenario_smooth_A :
    calculate_loop_smoothness scenarioGraph [0, 1, 2, 0] = 120 := by
  rw [iso_smoothness scenarioGraph 0 1 2 (Real.pi / 3) (by positivity)
      (by linarith [Real.pi_pos]) (by simp [scenarioGraph])
      (by simp [scenarioGraph]) (by simp [scenarioGraph])
      (by simp [scenarioGraph]) (by simp [scenarioGraph])
      (by simp [scenarioGraph])]
  have hπ : Real.pi ≠ 0 := Real.pi_ne_zero
  field_simp
  ring

lemma scenario_smooth_B :
    calculate_loop_smoothness scenarioGraph [3, 4, 5, 3] = 95 := by
  rw [iso_smoothness scenarioGraph 3 4 5 (19 * Real.pi / 72) (by positivity)
      (by linarith [Real.pi_pos]) (by simp [scenarioGraph])
      (by simp [scenarioGraph]) (by simp [scenarioGraph])
      (by simp [scenarioGraph]) (by simp [scenarioGraph])
      (by simp [scenarioGraph])]
  have hπ : Real.pi ≠ 0 := Real.pi_ne_zero
  field_simp
  ring

lemma scenario_len_A : cycleLength scenarioGraph [0, 1, 2, 0] = some 4900 := by
  have h1 : scenarioGraph.length 0 1 = some 1000 := by simp [scenarioGraph]
  have h2 : scenarioGraph.length 1 2 = some 1000 := by simp [scenarioGraph]
  have h3 : scenarioGraph.length 2 0 = some 2900 := by simp [scenarioGraph]
  simp [cycleLength, h1, h2, h3]
  norm_num

lemma scenario_len_B : cycleLength scenarioGraph [3, 4, 5, 3] = some 5100 := by
  have h1 : scenarioGraph.length 3 4 = some 1700 := by simp [scenarioGraph]
  have h2 : scenarioGraph.length 4 5 = some 1700 := by simp [scenarioGraph]
  have h3 : scenarioGraph.length 5 3 = some 1700 := by simp [scenarioGraph]
  simp [cycleLength, h1, h2, h3]
  norm_num

lemma scenario_candidates :
    candidate_loops scenarioGraph scenarioCycles 5 (1/10) 800 =
      [([0, 1, 2, 0], 4900, 120), ([3, 4, 5, 3], 5100, 95)] := by
  unfold candidate_loops
  rw [List.take_of_length_le (by simp [scenarioCycles])]
  simp only [scenarioCycles, List.filterMap_cons, List.filterMap_nil,
    show closeCycle [0, 1, 2] = [0, 1, 2, 0] from rfl,
    show closeCycle [3, 4, 5] = [3, 4, 5, 3] from rfl,
    scenario_len_A, scenario_len_B]
  rw [if_pos (by norm_num), if_pos (by norm_num)]
  rw [scenario_smooth_A, scenario_smooth_B]

lemma scenario_result :
    generate_smart_loops scenarioGraph scenarioCycles 0 5 (1/10) 800 =
      [([3, 4, 5, 3], 5100, 95), ([0, 1, 2, 0], 4900, 120)] := by
  unfold generate_smart_loops
  rw [scenario_candidates]
  simp only [List.insertionSort, List.orderedInsert]
  rw [if_neg (by norm_num)]

/-- C5: the value of the `start_node` argument has no influence on the
result of `generate_smart_loops`; the argument is accepted and ignored, as
in the source, so returned loops are not required to pass through it (on the
scenario fixture, the call with start node 0 returns a loop through nodes
3, 4, 5 only). -/
theorem generate_smart_loops_start_node_irrelevant :
    (∀ (G : Graph) (cycles : List (List Nat)) (s1 s2 : Nat) (d t : ℚ) (m : Nat),
        generate_smart_loops G cycles s1 d t m =
          generate_smart_loops G cycles s2 d t m) ∧
    (([3, 4, 5, 3], (5100 : ℚ), (95 : ℝ)) ∈
        generate_smart_loops scenarioGraph scenarioCycles 0 5 (1/10) 800 ∧
      0 ∉ [3, 4, 5, 3]) := by
  refine ⟨fun G cycles s1 s2 d t m => rfl, ?_, by decide⟩
  rw [scenario_result]
  simp

/-- C2: the returned list is sorted ascending by smoothness score (lower is
better), it contains exactly the qualifying candidates (each with its length
and score), and in the two-triangle scenario — cycle lengths 4.9 km and
5.1 km with smoothness 120° and 95° at target 5 km, tolerance 0.10 — the
5.1 km cycle is ranked first. -/
theorem generate_smart_loops_sorted_and_scenario :
    (∀ (G : Graph) (cycles : List (List Nat)) (sn : Nat) (d t : ℚ) (m : Nat),
        List.Sorted (fun a b => a.2.2 ≤ b.2.2)
          (generate_smart_loops G cycles sn d t m)) ∧
    (∀ (G : Graph) (cycles : List (List Nat)) (sn : Nat) (d t : ℚ) (m : Nat)
        (x : List Nat × ℚ × ℝ),
        x ∈ candidate_loops G cycles d t m ↔
          x ∈ generate_smart_loops G cycles sn d t m) ∧
    cycleLength scenarioGraph [0, 1, 2, 0] = some 4900 ∧
    calculate_loop_smoothness scenarioGraph [0, 1, 2, 0] = 120 ∧
    cycleLength scenarioGraph [3, 4, 5, 3] = some 5100 ∧
    calculate_loop_smoothness scenarioGraph [3, 4, 5, 3] = 95 ∧
    (generate_smart_loops scenarioGraph scenarioCycles 0 5 (1/10) 800).head? =
      some ([3, 4, 5, 3], 5100, 95) := by
  refine ⟨?_, ?_, scenario_len_A, scenario_smooth_A, scenario_len_B,
    scenario_smooth_B, ?_⟩
  · intro G cycles sn d t m
    exact List.sorted_insertionSort _ _
  · intro G cycles sn d t m x
    exact mem_generate_iff.symm
  · rw [scenario_result]
    rfl

/-- C3 (witness): on the scenario fixture, the enumerated cycle `[0, 1, 2]`
has closed length 4900 m, inside the window for a 5 km target at tolerance
0.10, and its candidate is indeed in the result. -/
theorem generate_smart_loops_window_capped_witness :
    (closeCycle [0, 1, 2], (4900 : ℚ),
        calculate_loop_smoothness scenarioGraph (closeCycle [0, 1, 2])) ∈
      generate_smart_loops scenarioGraph scenarioCycles 0 5 (1/10) 800 :=
  (generate_smart_loops_window_capped scenarioGraph scenarioCycles 0 5 (1/10)
      800).2 [0, 1, 2] (by simp [scenarioCycles]) 4900 scenario_len_A
    (by norm_num) (by norm_num)

/-- C4 (witness): the closed-and-length invariant at the concrete candidate
`([3, 4, 5, 3], 5100)` returned on the scenario fixture. -/
theorem generate_smart_loops_closed_length_witness :
    ([3, 4, 5, 3] : List Nat).head? = ([3, 4, 5, 3] : List Nat).getLast? ∧
      cycleLength scenarioGraph [3, 4, 5, 3] = some 5100 :=
  generate_smart_loops_closed_length scenarioGraph scenarioCycles 0 5 (1/10)
    800 ([3, 4, 5, 3], 5100, 95) (by rw [scenario_result]; simp)

lemma seg_len : cycleLength segGraph [0, 1, 0] = some 5000 := by
  have h1 : segGraph.length 0 1 = some 2500 := by simp [segGraph]
  have h2 : segGraph.length 1 0 = some 2500 := by simp [segGraph]
  simp [cycleLength, h1, h2]
  norm_num

lemma seg_result :
    generate_smart_loops segGraph [[0, 1]] 0 5 (1/10) 800 =
      [([0, 1, 0], 5000, 0)] := by
  unfold generate_smart_loops candidate_loops
  rw [List.take_of_length_le (by simp)]
  simp only [List.filterMap_cons, List.filterMap_nil,
    show closeCycle [0, 1] = [0, 1, 0] from rfl, seg_len]
  rw [if_pos (by norm_num)]
  rw [seg_smoothness]
  rfl

/-- C6: on the one-edge graph, the two-node cycle `[0, 1]` (as enumerated on
the directed version of the graph) is closed to `[0, 1, 0]`, qualifies for a
5 km target at tolerance 0.10, and is returned — it traverses the single
undirected edge `{0, 1}` twice, so no edge-reuse filter is applied. -/
theorem generate_smart_loops_edge_reuse :
    generate_smart_loops segGraph [[0, 1]] 0 5 (1/10) 800 =
      [([0, 1, 0], 5000, 0)] ∧
    undirectedEdges [0, 1, 0] = [(0, 1), (0, 1)] ∧
    ¬ (undirectedEdges [0, 1, 0]).Nodup ∧
    (5 : ℚ) * 1000 * (1 - 1/10) ≤ 5000 ∧
    (5000 : ℚ) ≤ 5 * 1000 * (1 + 1/10) :=
  ⟨seg_result, by decide, by decide, by norm_num, by norm_num⟩

lemma foldl_push_eq_append_map {α β : Type} (f : α → β) (l : List α)
    (init : List β) :
    l.foldl (fun acc a => acc ++ [f a]) init = init ++ l.map f := by
  induction l generalizing init with
  | nil => simp
  | cons a l ih => simp [ih]

lemma export_gpx_points (rows : List (ℚ × ℚ)) :
    trksegPoints (export_gpx rows) = rows.map trkptOf := by
  unfold export_gpx trksegPoints
  simp only []
  rw [foldl_push_eq_append_map, List.nil_append]

/-- C9: `export_gpx` produces a UTF-8 encoded document with an XML
declaration whose root `gpx` element contains one `trk` element with one
`trkseg`, holding exactly one `trkpt` per input coordinate in input order;
each `trkpt` carries the latitude/longitude of its coordinate as attributes
and an `ele` child with text `"0"`.  In particular the two-point scenario
serializes to exactly two track points in order. -/
theorem export_gpx_structure :
    (∀ rows : List (ℚ × ℚ),
      (export_gpx rows).encoding = "utf-8" ∧
      (export_gpx rows).xml_declaration = true ∧
      (export_gpx rows).root.tag = "gpx" ∧
      (export_gpx rows).root.children.map Xml.tag = ["trk"] ∧
      ((export_gpx rows).root.children.map Xml.children).map
          (List.map Xml.tag) = [["trkseg"]] ∧
      trksegPoints (export_gpx rows) = rows.map trkptOf ∧
      (trksegPoints (export_gpx rows)).length = rows.length ∧
      ∀ row : ℚ × ℚ, trkptOf row =
        Xml.elem "trkpt" [("lat", toString row.1), ("lon", toString row.2)]
          none [Xml.elem "ele" [] (some "0") []]) ∧
    trksegPoints (export_gpx [(24, 46), (24001/1000, 46001/1000)]) =
      [trkptOf (24, 46), trkptOf (24001/1000, 46001/1000)] := by
  constructor
  · intro rows
    refine ⟨rfl, rfl, rfl, rfl, rfl, export_gpx_points rows, ?_, fun row => rfl⟩
    rw [export_gpx_points, List.length_map]
  · rw [export_gpx_points]
    rfl

/-- C10 (counterexample): a malformed coordinate — latitude 999, far outside
the valid range `[-90, 90]` — does not make `export_gpx` fail with
`InvalidCoordinate` or anything else: it is serialized as a normal track
point.  No coordinate validation exists in the source. -/
theorem export_gpx_no_invalid_coordinate_counterexample :
    (90 : ℚ) < 999 ∧
    trksegPoints (export_gpx [(999, 0)]) =
      [Xml.elem "trkpt" [("lat", toString (999 : ℚ)), ("lon", toString (0 : ℚ))]
        none [Xml.elem "ele" [] (some "0") []]] := by
  refine ⟨by norm_num, ?_⟩
  rw [export_gpx_points]
  rfl

/-- C10 (amended): `export_gpx` is a pure, total function with no failure
modes at all — every input list of coordinates, malformed or not, produces
the full document — and no `InvalidCoordinate` failure path exists. -/
theorem export_gpx_total :
    ∀ rows : List (ℚ × ℚ),
      export_gpx rows =
        { encoding := "utf-8", xml_declaration := true,
          root := Xml.elem "gpx"
            [("version", "1.1"), ("creator", "RunningLoopApp")] none
            [Xml.elem "trk" [] none
              [Xml.elem "trkseg" [] none (rows.map trkptOf)]] } := by
  intro rows
  unfold export_gpx
  rw [foldl_push_eq_append_map, List.nil_append]

end RunningLoop
